import Mathlib

/-!
Shallow embedding of the I2C scanner firmware (src/src/main.c) and proofs of
its specified properties.

The bus's electrical state at the instant of each probe is modelled as a
function `bus : Nat → Int` giving, for each 7-bit address, the return code of
a one-byte read transaction addressed to it (`0` = success / ACK, nonzero =
transport error).  All code under verification is translated from the C
source; `*Spec`-style helper definitions are only used to characterise the
fold and are proved equal to what the translated code computes.
-/

namespace I2CScanner

/-- `#define I2C_SCAN_START 0x08` (main.c line 23). -/
def I2C_SCAN_START : Nat := 0x08

/-- `#define I2C_SCAN_END 0x77` (main.c line 24). -/
def I2C_SCAN_END : Nat := 0x77

/-- `#define MAX_FOUND_DEVICES 5` (main.c line 26). -/
def MAX_FOUND_DEVICES : Nat := 5

/-- One I2C message as issued by `i2c_read`: target address, number of bytes,
and direction (read = `true`). -/
structure I2CMsg where
  addr : Nat
  num_bytes : Nat
  is_read : Bool
deriving DecidableEq, Repr

/-- Zephyr `i2c_read(i2c_dev, &dummy_data, 1, addr)`: performs one read
transaction of `num_bytes` bytes addressed to `addr` and returns the
transport return code together with the list of bus transactions issued
(always exactly one). -/
def i2c_read (bus : Nat → Int) (num_bytes : Nat) (addr : Nat) : Int × List I2CMsg :=
  (bus addr, [⟨addr, num_bytes, true⟩])

/-- `test_i2c_address` (main.c lines 33-38): try to read one byte from the
device; returns 0 if the device ACKed, a negative error code otherwise. -/
def test_i2c_address (bus : Nat → Int) (addr : Nat) : Int × List I2CMsg :=
  i2c_read bus 1 addr

/-- The state accumulated across one execution of `scan_i2c_bus`:
`found_addrs` is the `uint8_t found_addrs[MAX_FOUND_DEVICES] = {0}` array
(always length 5), `devices_found` the `int devices_found` tally.  For
verification we additionally record the observable trace: `probes` is the
sequence of addresses passed to `test_i2c_address`, `writes` the sequence of
array indices stored to, and `cells` the sequence of three-character grid
cells printed. -/
structure ScanState where
  found_addrs : List Nat
  devices_found : Nat
  probes : List Nat
  writes : List Nat
  cells : List String
deriving DecidableEq, Repr

/-- State at the top of `scan_i2c_bus` (main.c lines 44-45): array zeroed,
tally zero, nothing probed/printed yet. -/
def initState : ScanState :=
  ⟨List.replicate MAX_FOUND_DEVICES 0, 0, [], [], []⟩

/-- One upper-case hexadecimal digit, as produced by `printk("%02X", ·)`. -/
def hexDigit (n : Nat) : Char :=
  if n < 10 then Char.ofNat (48 + n) else Char.ofNat (55 + n)

/-- `printk("%02X ", addr)`: two upper-case hex digits and a space. -/
def hexCell (addr : Nat) : String :=
  String.mk [hexDigit (addr / 16 % 16), hexDigit (addr % 16), ' ']

/-- The body of the inner column loop of `scan_i2c_bus` (main.c lines 53-71)
for one address: skip reserved addresses (printing a blank cell), otherwise
probe; on success print the hex cell and append to the bounded buffer, on
failure print `"-- "`. -/
def scanAddr (bus : Nat → Int) (st : ScanState) (addr : Nat) : ScanState :=
  if addr < I2C_SCAN_START ∨ I2C_SCAN_END < addr then
    { st with cells := st.cells ++ ["   "] }
  else if (test_i2c_address bus addr).1 = 0 then
    { found_addrs :=
        if st.devices_found < MAX_FOUND_DEVICES then
          st.found_addrs.set st.devices_found addr
        else st.found_addrs,
      devices_found := st.devices_found + 1,
      probes := st.probes ++ [addr],
      writes :=
        if st.devices_found < MAX_FOUND_DEVICES then
          st.writes ++ [st.devices_found]
        else st.writes,
      cells := st.cells ++ [hexCell addr] }
  else
    { st with probes := st.probes ++ [addr], cells := st.cells ++ ["-- "] }

/-- The address order of the two nested loops of `scan_i2c_bus` (main.c
lines 50-54): rows 0..7, columns 0..15, `addr = row * 16 + col`. -/
def addrOrder : List Nat :=
  (List.range 8).flatMap (fun row => (List.range 16).map (fun col => row * 16 + col))

/-- `scan_i2c_bus` (main.c lines 43-83): fold the per-address body over the
whole 8x16 grid starting from the freshly zeroed local state. -/
def scan_i2c_bus (bus : Nat → Int) : ScanState :=
  addrOrder.foldl (scanAddr bus) initState

/-- The end-of-scan summary loop (main.c lines 77-81): for each of the
`MAX_FOUND_DEVICES` slots, log `(i, found_addrs[i])` exactly when
`found_addrs[i] != 0`. -/
def loggedPairs (st : ScanState) : List (Nat × Nat) :=
  (List.range MAX_FOUND_DEVICES).filterMap (fun i =>
    if st.found_addrs.getD i 0 ≠ 0 then some (i, st.found_addrs.getD i 0) else none)

/-- Number of stored (nonzero) slots of the result buffer: the count of
entries the summary loop reports, i.e. the `device_count` of the Scan
Result data model. -/
def device_count (st : ScanState) : Nat :=
  (st.found_addrs.filter (fun x => x ≠ 0)).length

/-- The stored addresses `addresses[0..device_count)`. -/
def storedAddrs (st : ScanState) : List Nat :=
  st.found_addrs.take (device_count st)

/-- The poll loop (main.c lines 153-158) runs `scan_i2c_bus` once per cycle;
the bus state may differ from cycle to cycle, and each cycle's local buffer
is freshly initialised, so the results are the per-cycle scans. -/
def poll_results (buses : List (Nat → Int)) : List ScanState :=
  buses.map scan_i2c_bus

/-! ### Specification-side characterisation of the fold -/

/-- Addresses of a probe order that are actually probed: those not skipped
by the reserved-range test of main.c line 57. -/
def probeList (l : List Nat) : List Nat :=
  l.filter (fun a => ¬(a < I2C_SCAN_START ∨ I2C_SCAN_END < a))

/-- Probed addresses whose probe transaction succeeds. -/
def presentList (bus : Nat → Int) (l : List Nat) : List Nat :=
  (probeList l).filter (fun a => (test_i2c_address bus a).1 = 0)

/-- The addresses found present by one full scan, in probe order. -/
def presentBus (bus : Nat → Int) : List Nat :=
  presentList bus addrOrder

/-- The contents of the bounded array after appending the present addresses
`p` in order with the `devices_found < MAX_FOUND_DEVICES` guard: the first
five entries of `p`, zero-padded to length 5. -/
def padArray (p : List Nat) : List Nat :=
  p.take MAX_FOUND_DEVICES ++ List.replicate (MAX_FOUND_DEVICES - p.length) 0

/-- The grid cell printed for one address. -/
def cellFor (bus : Nat → Int) (a : Nat) : String :=
  if a < I2C_SCAN_START ∨ I2C_SCAN_END < a then "   "
  else if (test_i2c_address bus a).1 = 0 then hexCell a
  else "-- "


/-! ### Characterisation of the scan fold -/

lemma set_pad (n : Nat) (p : List Nat) (a : Nat) (h : p.length < n) :
    (p ++ List.replicate (n - p.length) 0).set p.length a
      = (p ++ [a]) ++ List.replicate (n - (p.length + 1)) 0 := by
  induction p generalizing n with
  | nil =>
    obtain ⟨m, rfl⟩ : ∃ m, n = m + 1 := ⟨n - 1, by omega⟩
    simp [List.replicate_succ]
  | cons x p ih =>
    obtain ⟨m, rfl⟩ : ∃ m, n = m + 1 := ⟨n - 1, by omega⟩
    have h' : p.length < m := by simpa using h
    have := ih m h'
    simp only [List.cons_append, List.length_cons, Nat.succ_sub_succ]
    rw [List.set_cons_succ]
    rw [this]

lemma padArray_append (p : List Nat) (a : Nat) :
    padArray (p ++ [a]) =
      if p.length < MAX_FOUND_DEVICES then (padArray p).set p.length a else padArray p := by
  by_cases h : p.length < MAX_FOUND_DEVICES
  · rw [if_pos h]
    unfold padArray
    rw [List.take_of_length_le (by simpa using h),
        List.take_of_length_le (le_of_lt h),
        set_pad MAX_FOUND_DEVICES p a h]
    simp [List.length_append]
  · rw [if_neg h]
    unfold padArray
    have h5 : MAX_FOUND_DEVICES ≤ p.length := Nat.le_of_not_lt h
    rw [List.take_append_of_le_length h5]
    have : MAX_FOUND_DEVICES - p.length = 0 := by omega
    have h2 : MAX_FOUND_DEVICES - (p ++ [a]).length = 0 := by
      simp [List.length_append]; omega
    rw [this, h2]


/-- The state of `scan_i2c_bus` after processing the addresses `l` in order,
expressed in terms of the probed/present sublists of `l`. -/
def specState (bus : Nat → Int) (l : List Nat) : ScanState :=
  { found_addrs := padArray (presentList bus l),
    devices_found := (presentList bus l).length,
    probes := probeList l,
    writes := List.range (min (presentList bus l).length MAX_FOUND_DEVICES),
    cells := l.map (cellFor bus) }

lemma probeList_append_res {a : Nat} (l : List Nat)
    (h : a < I2C_SCAN_START ∨ I2C_SCAN_END < a) :
    probeList (l ++ [a]) = probeList l := by
  simp only [probeList, List.filter_append, List.filter_cons]
  have : ¬¬(a < I2C_SCAN_START ∨ I2C_SCAN_END < a) := not_not_intro h
  simp [this]

lemma probeList_append_scan {a : Nat} (l : List Nat)
    (h : ¬(a < I2C_SCAN_START ∨ I2C_SCAN_END < a)) :
    probeList (l ++ [a]) = probeList l ++ [a] := by
  simp only [probeList, List.filter_append, List.filter_cons]
  simp [h]

lemma presentList_append_res (bus : Nat → Int) {a : Nat} (l : List Nat)
    (h : a < I2C_SCAN_START ∨ I2C_SCAN_END < a) :
    presentList bus (l ++ [a]) = presentList bus l := by
  rw [presentList, probeList_append_res l h, presentList]

lemma presentList_append_hit (bus : Nat → Int) {a : Nat} (l : List Nat)
    (h : ¬(a < I2C_SCAN_START ∨ I2C_SCAN_END < a))
    (h0 : (test_i2c_address bus a).1 = 0) :
    presentList bus (l ++ [a]) = presentList bus l ++ [a] := by
  rw [presentList, probeList_append_scan l h, presentList]
  simp [List.filter_append, List.filter_cons, h0]

lemma presentList_append_miss (bus : Nat → Int) {a : Nat} (l : List Nat)
    (h : ¬(a < I2C_SCAN_START ∨ I2C_SCAN_END < a))
    (h0 : ¬(test_i2c_address bus a).1 = 0) :
    presentList bus (l ++ [a]) = presentList bus l := by
  rw [presentList, probeList_append_scan l h, presentList]
  simp [List.filter_append, List.filter_cons, h0]

lemma range_min_succ_lt {k : Nat} (h : k < MAX_FOUND_DEVICES) :
    List.range (min (k + 1) MAX_FOUND_DEVICES) =
      List.range (min k MAX_FOUND_DEVICES) ++ [k] := by
  have h1 : min (k + 1) MAX_FOUND_DEVICES = k + 1 := by omega
  have h2 : min k MAX_FOUND_DEVICES = k := by omega
  rw [h1, h2, List.range_succ]

lemma range_min_succ_ge {k : Nat} (h : ¬k < MAX_FOUND_DEVICES) :
    List.range (min (k + 1) MAX_FOUND_DEVICES) =
      List.range (min k MAX_FOUND_DEVICES) := by
  have h1 : min (k + 1) MAX_FOUND_DEVICES = MAX_FOUND_DEVICES := by omega
  have h2 : min k MAX_FOUND_DEVICES = MAX_FOUND_DEVICES := by omega
  rw [h1, h2]

lemma foldl_scanAddr_char (bus : Nat → Int) (l : List Nat) :
    l.foldl (scanAddr bus) initState = specState bus l := by
  induction l using List.reverseRecOn with
  | nil =>
    simp [specState, initState, presentList, probeList, padArray]
  | append_singleton l a ih =>
    rw [List.foldl_append, ih, List.foldl_cons, List.foldl_nil]
    by_cases hres : a < I2C_SCAN_START ∨ I2C_SCAN_END < a
    · rw [scanAddr, if_pos hres]
      simp only [specState, ScanState.mk.injEq, List.map_append, List.map_cons,
        List.map_nil]
      refine ⟨?_, ?_, ?_, ?_, ?_⟩
      · rw [presentList_append_res bus l hres]
      · rw [presentList_append_res bus l hres]
      · rw [probeList_append_res l hres]
      · rw [presentList_append_res bus l hres]
      · rw [cellFor, if_pos hres]
    · by_cases hhit : (test_i2c_address bus a).1 = 0
      · rw [scanAddr, if_neg hres, if_pos hhit]
        simp only [specState, ScanState.mk.injEq, List.map_append, List.map_cons,
          List.map_nil]
        refine ⟨?_, ?_, ?_, ?_, ?_⟩
        · rw [presentList_append_hit bus l hres hhit, padArray_append]
        · rw [presentList_append_hit bus l hres hhit]
          simp
        · rw [probeList_append_scan l hres]
        · rw [presentList_append_hit bus l hres hhit]
          simp only [List.length_append, List.length_cons, List.length_nil,
            Nat.zero_add]
          by_cases hcap : (presentList bus l).length < MAX_FOUND_DEVICES
          · rw [if_pos hcap, range_min_succ_lt hcap]
          · rw [if_neg hcap, range_min_succ_ge hcap]
        · rw [cellFor, if_neg hres, if_pos hhit]
      · rw [scanAddr, if_neg hres, if_neg hhit]
        simp only [specState, ScanState.mk.injEq, List.map_append, List.map_cons,
          List.map_nil]
        refine ⟨?_, ?_, ?_, ?_, ?_⟩
        · rw [presentList_append_miss bus l hres hhit]
        · rw [presentList_append_miss bus l hres hhit]
        · rw [probeList_append_scan l hres]
        · rw [presentList_append_miss bus l hres hhit]
        · rw [cellFor, if_neg hres, if_neg hhit]


/-! ### Corollaries about one full scan -/

lemma scan_char (bus : Nat → Int) : scan_i2c_bus bus = specState bus addrOrder :=
  foldl_scanAddr_char bus addrOrder

lemma addrOrder_eq_range : addrOrder = List.range 128 := by decide

lemma probes_scan (bus : Nat → Int) :
    (scan_i2c_bus bus).probes = probeList addrOrder := by rw [scan_char]; rfl

lemma found_addrs_scan (bus : Nat → Int) :
    (scan_i2c_bus bus).found_addrs = padArray (presentBus bus) := by rw [scan_char]; rfl

lemma devices_found_scan (bus : Nat → Int) :
    (scan_i2c_bus bus).devices_found = (presentBus bus).length := by rw [scan_char]; rfl

lemma writes_scan (bus : Nat → Int) :
    (scan_i2c_bus bus).writes
      = List.range (min (presentBus bus).length MAX_FOUND_DEVICES) := by rw [scan_char]; rfl

lemma cells_scan (bus : Nat → Int) :
    (scan_i2c_bus bus).cells = addrOrder.map (cellFor bus) := by rw [scan_char]; rfl

lemma probeList_addrOrder :
    probeList addrOrder = (List.range 112).map (fun i => I2C_SCAN_START + i) := by decide

lemma mem_presentBus {bus : Nat → Int} {a : Nat} :
    a ∈ presentBus bus ↔
      I2C_SCAN_START ≤ a ∧ a ≤ I2C_SCAN_END ∧ (test_i2c_address bus a).1 = 0 := by
  simp only [presentBus, presentList, probeList, addrOrder_eq_range, List.mem_filter,
    List.mem_range, decide_eq_true_eq, not_or, not_lt, Bool.not_eq_true]
  constructor
  · rintro ⟨⟨_, h2, h3⟩, h4⟩
    exact ⟨h2, h3, h4⟩
  · rintro ⟨h1, h2, h3⟩
    have hE : I2C_SCAN_END = 0x77 := rfl
    exact ⟨⟨by omega, h1, h2⟩, h3⟩

lemma sorted_presentBus (bus : Nat → Int) :
    List.Pairwise (· < ·) (presentBus bus) := by
  have h : List.Pairwise (· < ·) (List.range 128) := List.pairwise_lt_range 128
  unfold presentBus presentList probeList
  rw [addrOrder_eq_range]
  exact (h.filter _).filter _

lemma presentBus_ne_zero {bus : Nat → Int} {a : Nat} (h : a ∈ presentBus bus) :
    a ≠ 0 := by
  have := (mem_presentBus.mp h).1
  have h8 : I2C_SCAN_START = 8 := rfl
  omega

lemma filter_padArray (p : List Nat) (hp : ∀ x ∈ p, x ≠ 0) :
    (padArray p).filter (fun x => x ≠ 0) = p.take MAX_FOUND_DEVICES := by
  unfold padArray
  rw [List.filter_append]
  have h1 : (p.take MAX_FOUND_DEVICES).filter (fun x => decide (x ≠ 0))
      = p.take MAX_FOUND_DEVICES :=
    List.filter_eq_self.mpr (fun a ha => by simpa using hp a (List.take_subset _ _ ha))
  have h2 : (List.replicate (MAX_FOUND_DEVICES - p.length) 0).filter
      (fun x : Nat => decide (x ≠ 0)) = [] := by simp
  rw [h1, h2, List.append_nil]

lemma device_count_scan (bus : Nat → Int) :
    device_count (scan_i2c_bus bus) = min (presentBus bus).length MAX_FOUND_DEVICES := by
  rw [device_count, found_addrs_scan,
    filter_padArray _ (fun x hx => presentBus_ne_zero hx), List.length_take, Nat.min_comm]

lemma storedAddrs_scan (bus : Nat → Int) :
    storedAddrs (scan_i2c_bus bus) = (presentBus bus).take MAX_FOUND_DEVICES := by
  rw [storedAddrs, device_count_scan, found_addrs_scan, padArray]
  exact List.take_left' (by rw [List.length_take, Nat.min_comm])


/-! ### Concrete bus states used as witnesses -/

/-- Bus with devices answering only at the boundary addresses 0x08 and 0x77
(Scenario B); every other address returns `-5` (`-EIO`). -/
def busBoundary : Nat → Int := fun a => if a = 0x08 ∨ a = 0x77 then 0 else -5

/-- Bus on which every address ACKs. -/
def busAll : Nat → Int := fun _ => 0

/-- Bus on which no address ACKs (`-5` everywhere). -/
def busNone : Nat → Int := fun _ => -5

/-- Bus with devices at 0x10..0x16 (seven devices, more than capacity). -/
def busSeven : Nat → Int := fun a => if 0x10 ≤ a ∧ a ≤ 0x16 then 0 else -5

/-! ### Claim theorems -/

/-- C1: for every reserved address `a` (in `[0x00,0x07]` or `[0x78,0x7F]`),
one execution of `scan_i2c_bus` never invokes `test_i2c_address` with `a`,
and the grid cell rendered for `a` is the blank three-space cell. -/
theorem reserved_never_probed_blank_cell (bus : Nat → Int) (a : Nat)
    (hlo : a ≤ 0x7F) (hres : a ≤ 0x07 ∨ 0x78 ≤ a) :
    a ∉ (scan_i2c_bus bus).probes ∧ (scan_i2c_bus bus).cells[a]? = some "   " := by
  have hres' : a < I2C_SCAN_START ∨ I2C_SCAN_END < a := by
    have h1 : I2C_SCAN_START = 8 := rfl
    have h2 : I2C_SCAN_END = 0x77 := rfl
    omega
  constructor
  · rw [probes_scan]
    intro hmem
    rw [probeList, List.mem_filter] at hmem
    have := hmem.2
    simp at this
    have h1 : I2C_SCAN_START = 8 := rfl
    have h2 : I2C_SCAN_END = 0x77 := rfl
    omega
  · rw [cells_scan, addrOrder_eq_range]
    have ha : a < 128 := by omega
    rw [List.getElem?_map, List.getElem?_range ha]
    simp [cellFor, hres']

/-- C1 witness: address 0x00 on a bus where every address would ACK is still
never probed and renders blank. -/
theorem reserved_never_probed_blank_cell_witness :
    0 ∉ (scan_i2c_bus busAll).probes ∧ (scan_i2c_bus busAll).cells[0]? = some "   " :=
  reserved_never_probed_blank_cell busAll 0 (by decide) (by decide)

/-- C2: one execution of `scan_i2c_bus` probes every scannable address
`a ∈ [0x08,0x77]` exactly once, the probe sequence is strictly ascending,
and there are 112 probes in total. -/
theorem scannable_probed_once_ascending (bus : Nat → Int) (a : Nat)
    (hlo : I2C_SCAN_START ≤ a) (hhi : a ≤ I2C_SCAN_END) :
    (scan_i2c_bus bus).probes.count a = 1
    ∧ List.Pairwise (· < ·) (scan_i2c_bus bus).probes
    ∧ (scan_i2c_bus bus).probes.length = 112 := by
  rw [probes_scan, probeList_addrOrder]
  have h1 : I2C_SCAN_START = 8 := rfl
  have h2 : I2C_SCAN_END = 0x77 := rfl
  refine ⟨?_, ?_, by decide⟩
  · have hmem : a ∈ (List.range 112).map (fun i => I2C_SCAN_START + i) := by
      rw [List.mem_map]
      exact ⟨a - 8, by rw [List.mem_range]; omega, by simp [h1]; omega⟩
    have hnodup : ((List.range 112).map (fun i => I2C_SCAN_START + i)).Nodup :=
      (List.nodup_range 112).map (fun i j h => by omega)
    exact List.count_eq_one_of_mem hnodup hmem
  · have := List.pairwise_lt_range 112
    exact this.map _ (fun i j h => by omega)

/-- C2 witness at address 0x08. -/
theorem scannable_probed_once_ascending_witness :
    (scan_i2c_bus busNone).probes.count 0x08 = 1
    ∧ List.Pairwise (· < ·) (scan_i2c_bus busNone).probes
    ∧ (scan_i2c_bus busNone).probes.length = 112 :=
  scannable_probed_once_ascending busNone 0x08 (by decide) (by decide)


/-- C3: after any scan cycle the stored count is at most
`MAX_FOUND_DEVICES`; and whenever more scannable addresses are present than
fit, the array holds exactly the first `MAX_FOUND_DEVICES` present addresses
in ascending (hence lowest-address-first) order. -/
theorem device_count_saturated (bus : Nat → Int) :
    device_count (scan_i2c_bus bus) ≤ MAX_FOUND_DEVICES
    ∧ List.Pairwise (· < ·) (presentBus bus)
    ∧ (MAX_FOUND_DEVICES < (presentBus bus).length →
        (scan_i2c_bus bus).found_addrs = (presentBus bus).take MAX_FOUND_DEVICES
        ∧ device_count (scan_i2c_bus bus) = MAX_FOUND_DEVICES) := by
  refine ⟨?_, sorted_presentBus bus, ?_⟩
  · rw [device_count_scan]
    omega
  · intro hover
    constructor
    · rw [found_addrs_scan, padArray]
      have h0 : MAX_FOUND_DEVICES - (presentBus bus).length = 0 := by omega
      rw [h0]
      simp
    · rw [device_count_scan]
      omega

/-- C3 witness: with seven devices present (0x10..0x16), the buffer stores
exactly the five lowest and the count saturates at 5. -/
theorem device_count_saturated_witness :
    (scan_i2c_bus busSeven).found_addrs = (presentBus busSeven).take MAX_FOUND_DEVICES
    ∧ device_count (scan_i2c_bus busSeven) = MAX_FOUND_DEVICES :=
  (device_count_saturated busSeven).2.2 (by decide)

/-- C4: each scan cycle starts from the freshly zeroed local buffer, so the
second of two consecutive poll cycles is exactly the scan of the second
cycle's bus state: when that bus has exactly 2 present addresses the result
reports exactly those two, with the remaining three slots still zero. -/
theorem scan_buffer_reset (bus1 bus2 : Nat → Int)
    (h : (presentBus bus2).length = 2) :
    (poll_results [bus1, bus2])[1]? = some (scan_i2c_bus bus2)
    ∧ (scan_i2c_bus bus2).found_addrs = presentBus bus2 ++ [0, 0, 0]
    ∧ device_count (scan_i2c_bus bus2) = 2 := by
  refine ⟨rfl, ?_, ?_⟩
  · rw [found_addrs_scan, padArray, h,
      List.take_of_length_le (by rw [h]; decide)]
    rfl
  · rw [device_count_scan, h]
    decide

/-- C4 witness: a cycle finding 5 devices (all of 0x10..0x16 capped) is
followed by a cycle on the boundary bus finding exactly 2. -/
theorem scan_buffer_reset_witness :
    (poll_results [busSeven, busBoundary])[1]? = some (scan_i2c_bus busBoundary)
    ∧ (scan_i2c_bus busBoundary).found_addrs = presentBus busBoundary ++ [0, 0, 0]
    ∧ device_count (scan_i2c_bus busBoundary) = 2 :=
  scan_buffer_reset busSeven busBoundary (by decide)

/-- C5: after any scan cycle, every stored address lies in
`[I2C_SCAN_START, I2C_SCAN_END]` and the stored addresses are pairwise
distinct. -/
theorem stored_addrs_in_range_distinct (bus : Nat → Int) :
    (∀ a ∈ storedAddrs (scan_i2c_bus bus), I2C_SCAN_START ≤ a ∧ a ≤ I2C_SCAN_END)
    ∧ (storedAddrs (scan_i2c_bus bus)).Nodup := by
  rw [storedAddrs_scan]
  constructor
  · intro a ha
    have hmem : a ∈ presentBus bus := List.take_subset _ _ ha
    have := mem_presentBus.mp hmem
    exact ⟨this.1, this.2.1⟩
  · exact ((sorted_presentBus bus).sublist (List.take_sublist _ _)).nodup

/-- C5 witness: on the boundary bus, 0x08 is stored, in range, and the
stored list has no duplicates. -/
theorem stored_addrs_in_range_distinct_witness :
    (I2C_SCAN_START ≤ 0x08 ∧ 0x08 ≤ I2C_SCAN_END)
    ∧ (storedAddrs (scan_i2c_bus busBoundary)).Nodup :=
  ⟨(stored_addrs_in_range_distinct busBoundary).1 0x08 (by decide),
   (stored_addrs_in_range_distinct busBoundary).2⟩


set_option maxRecDepth 10000 in
/-- C8 (Scenario B): with devices at exactly 0x08 and 0x77, the scan stores
0x08 at index 0 and 0x77 at index 1, counts 2, finds exactly those two
present, and renders `"-- "` at all 110 other scannable cells. -/
theorem scenario_boundary_addresses :
    device_count (scan_i2c_bus busBoundary) = 2
    ∧ (scan_i2c_bus busBoundary).found_addrs = [0x08, 0x77, 0, 0, 0]
    ∧ presentBus busBoundary = [0x08, 0x77]
    ∧ (scan_i2c_bus busBoundary).cells.count "-- " = 110 := by
  refine ⟨by decide, by decide, by decide, by decide⟩

/-- C9: for every bus state the guarded append stores only at indices
strictly below `MAX_FOUND_DEVICES` (the array keeps its 5 slots), while the
`devices_found` tally keeps counting every present address unbounded. -/
theorem array_writes_in_bounds (bus : Nat → Int) :
    (∀ i ∈ (scan_i2c_bus bus).writes, i < MAX_FOUND_DEVICES)
    ∧ (scan_i2c_bus bus).found_addrs.length = MAX_FOUND_DEVICES
    ∧ (scan_i2c_bus bus).devices_found = (presentBus bus).length := by
  refine ⟨?_, ?_, devices_found_scan bus⟩
  · intro i hi
    rw [writes_scan, List.mem_range] at hi
    omega
  · rw [found_addrs_scan, padArray]
    rw [List.length_append, List.length_take, List.length_replicate]
    omega

/-- C9 witness: on a bus where all 112 scannable addresses ACK, the tally
reaches 112 (well past capacity) yet the first write index 0 is in bounds. -/
theorem array_writes_in_bounds_witness :
    (0 : Nat) < MAX_FOUND_DEVICES
    ∧ (scan_i2c_bus busAll).devices_found = (presentBus busAll).length
    ∧ (scan_i2c_bus busAll).devices_found = 112 :=
  ⟨(array_writes_in_bounds busAll).1 0 (by decide),
   (array_writes_in_bounds busAll).2.2, by decide⟩

lemma padArray_eq_take (p : List Nat) :
    padArray p = p.take MAX_FOUND_DEVICES
      ++ List.replicate (MAX_FOUND_DEVICES - (p.take MAX_FOUND_DEVICES).length) 0 := by
  rw [padArray, List.length_take]
  congr 2
  omega

lemma logged_of_padded (q : List Nat) (h5 : q.length ≤ 5) (hq : ∀ x ∈ q, x ≠ 0) :
    (List.range 5).filterMap (fun i =>
      if (q ++ List.replicate (5 - q.length) 0).getD i 0 ≠ 0
      then some (i, (q ++ List.replicate (5 - q.length) 0).getD i 0) else none)
      = q.enum := by
  have hr : List.range 5 = [0, 1, 2, 3, 4] := by decide
  rcases q with _ | ⟨a, _ | ⟨b, _ | ⟨c, _ | ⟨d, _ | ⟨e, _ | ⟨f, q⟩⟩⟩⟩⟩⟩
  · rw [hr]; decide
  · have ha : a ≠ 0 := hq a (by simp)
    rw [hr]
    simp [List.enum, List.enumFrom, ha]
  · have ha : a ≠ 0 := hq a (by simp)
    have hb : b ≠ 0 := hq b (by simp)
    rw [hr]
    simp [List.enum, List.enumFrom, ha, hb]
  · have ha : a ≠ 0 := hq a (by simp)
    have hb : b ≠ 0 := hq b (by simp)
    have hc : c ≠ 0 := hq c (by simp)
    rw [hr]
    simp [List.enum, List.enumFrom, ha, hb, hc]
  · have ha : a ≠ 0 := hq a (by simp)
    have hb : b ≠ 0 := hq b (by simp)
    have hc : c ≠ 0 := hq c (by simp)
    have hd : d ≠ 0 := hq d (by simp)
    rw [hr]
    simp [List.enum, List.enumFrom, ha, hb, hc, hd]
  · have ha : a ≠ 0 := hq a (by simp)
    have hb : b ≠ 0 := hq b (by simp)
    have hc : c ≠ 0 := hq c (by simp)
    have hd : d ≠ 0 := hq d (by simp)
    have he : e ≠ 0 := hq e (by simp)
    rw [hr]
    simp [List.enum, List.enumFrom, ha, hb, hc, hd, he]
  · exfalso
    simp at h5

/-- C10: the end-of-scan summary loop logs the pair `(i, found_addrs[i])`
for exactly the stored entries: its output is the enumeration of the first
`min (devices_found, MAX_FOUND_DEVICES)` present addresses. -/
theorem summary_logs_exactly_stored (bus : Nat → Int) :
    loggedPairs (scan_i2c_bus bus) = ((presentBus bus).take MAX_FOUND_DEVICES).enum
    ∧ ((presentBus bus).take MAX_FOUND_DEVICES).length
        = min (scan_i2c_bus bus).devices_found MAX_FOUND_DEVICES := by
  constructor
  · rw [loggedPairs, found_addrs_scan, padArray_eq_take]
    exact logged_of_padded _ (by rw [List.length_take]; exact Nat.min_le_left _ _)
      (fun x hx => presentBus_ne_zero (List.take_subset _ _ hx))
  · rw [devices_found_scan, List.length_take, Nat.min_comm]


/-- Boundary bus with a different (but still nonzero) error code `-19`
(`-ENODEV`) at the absent addresses. -/
def busBoundaryOtherErr : Nat → Int := fun a => if a = 0x08 ∨ a = 0x77 then 0 else -19

/-- C6: the Prober issues exactly one single-byte read transaction addressed
to the candidate; a scannable address is reported present iff that
transaction returns 0; any nonzero return code yields absent; and the whole
scan result depends only on which addresses return 0, so specific error
codes are not distinguished (and there is no retry - the transaction list
has length one). -/
theorem prober_one_read_presence_iff_success (bus : Nat → Int) (a : Nat)
    (hlo : I2C_SCAN_START ≤ a) (hhi : a ≤ I2C_SCAN_END) :
    (test_i2c_address bus a).2 = [⟨a, 1, true⟩]
    ∧ (a ∈ presentBus bus ↔ (test_i2c_address bus a).1 = 0)
    ∧ ((test_i2c_address bus a).1 ≠ 0 → a ∉ presentBus bus)
    ∧ (∀ bus' : Nat → Int, (∀ x, bus x = 0 ↔ bus' x = 0) →
        scan_i2c_bus bus = scan_i2c_bus bus') := by
  refine ⟨rfl, ?_, ?_, ?_⟩
  · constructor
    · intro h
      exact (mem_presentBus.mp h).2.2
    · intro h
      exact mem_presentBus.mpr ⟨hlo, hhi, h⟩
  · intro h hmem
    exact h (mem_presentBus.mp hmem).2.2
  · intro bus' hsame
    have hsame' : ∀ x, (test_i2c_address bus x).1 = 0 ↔ (test_i2c_address bus' x).1 = 0 :=
      fun x => hsame x
    have hcell : ∀ x, cellFor bus x = cellFor bus' x := by
      intro x
      unfold cellFor
      by_cases hres : x < I2C_SCAN_START ∨ I2C_SCAN_END < x
      · rw [if_pos hres, if_pos hres]
      · rw [if_neg hres, if_neg hres]
        by_cases h0 : (test_i2c_address bus x).1 = 0
        · rw [if_pos h0, if_pos ((hsame' x).mp h0)]
        · rw [if_neg h0, if_neg (fun hc => h0 ((hsame' x).mpr hc))]
    have hp : presentList bus addrOrder = presentList bus' addrOrder := by
      unfold presentList
      apply List.filter_congr
      intro x _
      exact decide_eq_decide.mpr (hsame' x)
    rw [scan_char, scan_char]
    unfold specState
    rw [hp, List.map_congr_left (fun x _ => hcell x)]

/-- C6 witness: at address 0x08 on the boundary bus, and swapping the error
code `-5` for `-19` at every absent address leaves the scan unchanged. -/
theorem prober_one_read_presence_iff_success_witness :
    (test_i2c_address busBoundary 0x08).2 = [⟨0x08, 1, true⟩]
    ∧ (0x08 ∈ presentBus busBoundary ↔ (test_i2c_address busBoundary 0x08).1 = 0)
    ∧ scan_i2c_bus busBoundary = scan_i2c_bus busBoundaryOtherErr :=
  ⟨(prober_one_read_presence_iff_success busBoundary 0x08 (by decide) (by decide)).1,
   (prober_one_read_presence_iff_success busBoundary 0x08 (by decide) (by decide)).2.1,
   (prober_one_read_presence_iff_success busBoundary 0x08 (by decide) (by decide)).2.2.2
     busBoundaryOtherErr
     (fun x => by
       by_cases h : x = 0x08 ∨ x = 0x77 <;>
         simp [busBoundary, busBoundaryOtherErr, h])⟩


/-! ### Peripheral bring-up (`main`, main.c lines 85-161) -/

/-- Zephyr pin-configuration flag `GPIO_OUTPUT_ACTIVE` (symbolic value). -/
def GPIO_OUTPUT_ACTIVE : Nat := 1

/-- Zephyr pin-configuration flag `GPIO_OUTPUT_INACTIVE` (symbolic value). -/
def GPIO_OUTPUT_INACTIVE : Nat := 2

/-- `#define GPIO_PIN_7 7` (main.c line 17). -/
def GPIO_PIN_7 : Nat := 7

/-- `#define GPIO_PIN_9 9` (main.c line 18). -/
def GPIO_PIN_9 : Nat := 9

/-- `#define GPIO_PIN_10 10` (main.c line 19). -/
def GPIO_PIN_10 : Nat := 10

/-- One observable hardware call made during bring-up, with its result. -/
inductive HwStep where
  | check_gpio_ready (ok : Bool)
  | configure_pin (pin flags : Nat) (ret : Int)
  | set_pin (pin : Nat) (value : Nat) (ret : Int)
  | check_i2c_ready (ok : Bool)
deriving DecidableEq, Repr

/-- The hardware environment `main` runs against: readiness of the two
controllers and the return codes of the pin operations. -/
structure HwEnv where
  gpio_ready : Bool
  i2c_ready : Bool
  gpio_pin_configure : Nat → Nat → Int
  gpio_pin_set : Nat → Nat → Int

/-- The startup portion of `main` (main.c lines 85-150), returning the trace
of hardware calls made and `some ret` if startup aborted with return value
`ret`, or `none` if execution fell through to the poll loop (lines 153-158).
The step order is exactly that of the source: GPIO readiness check, then the
three pin configure/set pairs, then the I2C readiness check. -/
def main_startup (env : HwEnv) : List HwStep × Option Int :=
  let t0 := [HwStep.check_gpio_ready env.gpio_ready]
  if ¬env.gpio_ready then (t0, some (-1))
  else
    let r1 := env.gpio_pin_configure GPIO_PIN_7 GPIO_OUTPUT_ACTIVE
    let t1 := t0 ++ [HwStep.configure_pin GPIO_PIN_7 GPIO_OUTPUT_ACTIVE r1]
    if r1 < 0 then (t1, some r1)
    else
      let r2 := env.gpio_pin_set GPIO_PIN_7 1
      let t2 := t1 ++ [HwStep.set_pin GPIO_PIN_7 1 r2]
      if r2 < 0 then (t2, some r2)
      else
        let r3 := env.gpio_pin_configure GPIO_PIN_9 GPIO_OUTPUT_INACTIVE
        let t3 := t2 ++ [HwStep.configure_pin GPIO_PIN_9 GPIO_OUTPUT_INACTIVE r3]
        if r3 < 0 then (t3, some r3)
        else
          let r4 := env.gpio_pin_set GPIO_PIN_9 0
          let t4 := t3 ++ [HwStep.set_pin GPIO_PIN_9 0 r4]
          if r4 < 0 then (t4, some r4)
          else
            let r5 := env.gpio_pin_configure GPIO_PIN_10 GPIO_OUTPUT_INACTIVE
            let t5 := t4 ++ [HwStep.configure_pin GPIO_PIN_10 GPIO_OUTPUT_INACTIVE r5]
            if r5 < 0 then (t5, some r5)
            else
              let r6 := env.gpio_pin_set GPIO_PIN_10 0
              let t6 := t5 ++ [HwStep.set_pin GPIO_PIN_10 0 r6]
              if r6 < 0 then (t6, some r6)
              else
                let t7 := t6 ++ [HwStep.check_i2c_ready env.i2c_ready]
                if ¬env.i2c_ready then (t7, some (-1))
                else (t7, none)

/-- Environment in which everything works except that the I2C controller is
not ready. -/
def envI2cNotReady : HwEnv :=
  ⟨true, false, fun _ _ => 0, fun _ _ => 0⟩

/-- Environment in which every bring-up step succeeds. -/
def envAllOk : HwEnv :=
  ⟨true, true, fun _ _ => 0, fun _ _ => 0⟩

/-- C7 counterexample: in an environment whose I2C controller is not ready,
bring-up nevertheless configures GPIO pin 7 (and only afterwards checks the
I2C controller and aborts), so the I2C readiness of the bus controller is
NOT verified before pins are configured. -/
theorem bringup_configures_pins_before_i2c_check :
    envI2cNotReady.i2c_ready = false
    ∧ HwStep.configure_pin GPIO_PIN_7 GPIO_OUTPUT_ACTIVE 0 ∈ (main_startup envI2cNotReady).1
    ∧ (main_startup envI2cNotReady).1.indexOf (HwStep.check_i2c_ready false) = 7
    ∧ (main_startup envI2cNotReady).2 = some (-1) := by
  refine ⟨rfl, by decide, by decide, by decide⟩

/-- C7 amended: bring-up verifies the GPIO controller before any pin is
configured, checks the I2C controller only after all pins are configured,
and any failing step (controller not ready, configure failure, set failure)
aborts startup with an error so that execution never reaches the poll loop;
the poll loop is reached exactly when every step succeeds. -/
theorem bringup_gpio_first_any_failure_aborts (env : HwEnv) :
    (main_startup env).1.head? = some (HwStep.check_gpio_ready env.gpio_ready)
    ∧ ((main_startup env).2 = none ↔
        (env.gpio_ready = true ∧ env.i2c_ready = true
         ∧ 0 ≤ env.gpio_pin_configure GPIO_PIN_7 GPIO_OUTPUT_ACTIVE
         ∧ 0 ≤ env.gpio_pin_set GPIO_PIN_7 1
         ∧ 0 ≤ env.gpio_pin_configure GPIO_PIN_9 GPIO_OUTPUT_INACTIVE
         ∧ 0 ≤ env.gpio_pin_set GPIO_PIN_9 0
         ∧ 0 ≤ env.gpio_pin_configure GPIO_PIN_10 GPIO_OUTPUT_INACTIVE
         ∧ 0 ≤ env.gpio_pin_set GPIO_PIN_10 0))
    ∧ (∀ p f r, HwStep.configure_pin p f r ∈ (main_startup env).1 →
        env.gpio_ready = true) := by
  unfold main_startup
  by_cases hg : env.gpio_ready
  <;> simp only [hg, Bool.not_true, Bool.not_false, ite_true, ite_false,
    Bool.false_eq_true, not_false_eq_true, not_true_eq_false]
  case neg =>
    refine ⟨rfl, ?_, ?_⟩
    · simp
    · intro p f r hmem
      simp at hmem
  case pos =>
    split_ifs with h1 h2 h3 h4 h5 h6 h7
    all_goals refine ⟨by simp, ?_, fun _ _ _ _ => trivial⟩
    all_goals simp_all

/-- C7 amended witness: in the all-success environment, bring-up reaches the
poll loop. -/
theorem bringup_gpio_first_any_failure_aborts_witness :
    (main_startup envAllOk).2 = none :=
  ((bringup_gpio_first_any_failure_aborts envAllOk).2.1).mpr
    ⟨rfl, rfl, by decide, by decide, by decide, by decide, by decide, by decide⟩

end I2CScanner
